import Mathlib

/-!
Shallow embedding of the judging & trading consensus engine of the
alpha-channel-media repository (src/routes/judging.js and the Socket.IO
judging handler), together with proofs about the behaviour of its
operations: the consensus calculator, judge qualification gate, trading
engine, settlement engine and realtime rating submission.
-/

namespace AlphaChannel

/-- Identity role of a platform user (`user_type` column). -/
inductive Role
  | creator
  | listener
deriving DecidableEq

/-- Values of `judging_sessions.status`. -/
inductive SessStatus
  | scheduled
  | live
  | completed
deriving DecidableEq

/-- Values of `trades.direction`. -/
inductive Direction
  | over
  | under
deriving DecidableEq

/-- Values of `trades.outcome`. -/
inductive Outcome
  | win
  | loss
  | push
deriving DecidableEq

/-- Values of `trades.status`. -/
inductive TradeStatus
  | pending
  | settled
deriving DecidableEq

/-- Values of `judges.status` (spec §3: status is active or suspended). -/
inductive JudgeStatus
  | active
  | suspended
deriving DecidableEq

/-- Values of `judge_applications.status`. -/
inductive AppStatus
  | pending
  | screening
  | approved
  | rejected
deriving DecidableEq

/-- A row of `judge_rating_snapshots`. Ratings are stored as integers
(clamped on insertion); `timestamp` is milliseconds since epoch. -/
structure Snapshot where
  session_id : Nat
  judge_id : Nat
  rating : Int
  timestamp : Nat
deriving DecidableEq

/-! ## Consensus Calculator

Embedding of the SQL used identically in `judging.js` (settle, trade
placement, session listing) and the socket handler:

  SELECT AVG(sub.rating), COUNT(DISTINCT sub.judge_id)
  FROM (SELECT DISTINCT ON (judge_id) judge_id, rating
        FROM judge_rating_snapshots WHERE session_id = $1
        ORDER BY judge_id, timestamp DESC) sub
-/

/-- The clause `WHERE session_id = sid`. -/
def snapsFor (sid : Nat) (ledger : List Snapshot) : List Snapshot :=
  ledger.filter (fun s => s.session_id = sid)

/-- All snapshots of one judge within a (filtered) session ledger. -/
def snapsOfJudge (j : Nat) (l : List Snapshot) : List Snapshot :=
  l.filter (fun s => s.judge_id = j)

/-- Of two snapshots, the one with the later timestamp (the earlier
argument is kept on ties, a deterministic stand-in for the arbitrary
tie-break of `DISTINCT ON ... ORDER BY timestamp DESC`). -/
def newer (a b : Snapshot) : Snapshot :=
  if a.timestamp < b.timestamp then b else a

/-- Fold step accumulating the most recent snapshot seen so far. -/
def latestAcc (acc : Option Snapshot) (s : Snapshot) : Option Snapshot :=
  match acc with
  | none => some s
  | some b => some (newer b s)

/-- The most recent snapshot of a list (`ORDER BY timestamp DESC LIMIT 1`). -/
def pickLatest (l : List Snapshot) : Option Snapshot :=
  l.foldl latestAcc none

/-- The distinct judges appearing in a session ledger
(`COUNT(DISTINCT judge_id)`'s underlying set). -/
def contributingJudges (l : List Snapshot) : List Nat :=
  (l.map (fun s => s.judge_id)).dedup

/-- The latest rating of each distinct judge (`DISTINCT ON (judge_id)
... ORDER BY judge_id, timestamp DESC`). -/
def latestRatings (l : List Snapshot) : List Int :=
  (contributingJudges l).filterMap
    (fun j => (pickLatest (snapsOfJudge j l)).map (fun s => s.rating))

/-- The value `COUNT(DISTINCT sub.judge_id)` for a session. -/
def judgeCountOf (sid : Nat) (ledger : List Snapshot) : Nat :=
  (contributingJudges (snapsFor sid ledger)).length

/-- Sum of a list of integer ratings as a rational. -/
def qsum (rs : List Int) : ℚ :=
  (rs.map (fun r => (Int.cast r : ℚ))).sum

/-- The value `AVG(sub.rating)` for a session: SQL `AVG` over an empty set is NULL,
modelled as `none`. -/
def consensusOf (sid : Nat) (ledger : List Snapshot) : Option ℚ :=
  if (latestRatings (snapsFor sid ledger)).isEmpty then none
  else some (qsum (latestRatings (snapsFor sid ledger)) /
    (latestRatings (snapsFor sid ledger)).length)

/-! ## JavaScript numeric helpers -/

/-- JavaScript `x || d` applied to a nullable numeric column: `null` and
`0` are both falsy, so both collapse to the default. -/
def jsOr (v : Option ℚ) (d : ℚ) : ℚ :=
  match v with
  | none => d
  | some q => if q = 0 then d else q

/-- JavaScript `Math.round`: round half toward positive infinity. -/
def jsRound (q : ℚ) : Int := ⌊q + 1/2⌋

/-- JavaScript `Math.round(x * 100) / 100` — round to two decimals. -/
def round2 (q : ℚ) : ℚ := (jsRound (q * 100) : ℚ) / 100

/-! ## Data model (rows of the judging tables) -/

/-- A row of `judging_sessions`. -/
structure SessionRec where
  id : Nat
  status : SessStatus
  trading_window_end : Option Nat
  actual_start : Option Nat
  end_time : Option Nat
  final_consensus : Option ℚ
  judge_count : Nat
deriving DecidableEq

/-- A row of `traders`. -/
structure Trader where
  id : Nat
  user_id : Nat
  user_type : Role
  play_money_balance : ℚ
  total_trades : Nat
  winning_trades : Nat
  losing_trades : Nat
  total_profit_loss : ℚ
  current_streak : Nat
  best_streak : Nat
  last_trade_at : Option Nat
deriving DecidableEq

/-- A row of `trades`. -/
structure TradeRec where
  id : Nat
  session_id : Nat
  user_id : Nat
  user_type : Role
  trader_id : Nat
  direction : Direction
  entry_sentiment : ℚ
  amount : ℚ
  status : TradeStatus
  outcome : Option Outcome
  final_sentiment : Option ℚ
  payout : Option ℚ
deriving DecidableEq

/-- A row of `judges`. -/
structure JudgeRec where
  id : Nat
  user_id : Nat
  user_type : Role
  status : JudgeStatus
  sessions_judged : Nat
  total_ratings : Nat
deriving DecidableEq

/-- A row of `judge_applications`. -/
structure JudgeApplication where
  id : Nat
  user_id : Nat
  user_type : Role
  status : AppStatus
  attempts : Nat
  screening_score : Option ℚ
  screening_deviation : Option ℚ
  next_attempt_date : Option Nat
  created_at : Nat
deriving DecidableEq

/-- A row of `anchor_songs`. -/
structure AnchorSong where
  id : Nat
  correct_rating : ℚ
  tolerance : ℚ
  active : Bool
deriving DecidableEq

/-- The relational store, restricted to the judging tables. -/
structure St where
  sessions : List SessionRec
  snapshots : List Snapshot
  traders : List Trader
  trades : List TradeRec
  judges : List JudgeRec
  applications : List JudgeApplication
  anchor_songs : List AnchorSong
deriving DecidableEq

/-- The `play_money_balance` column default of the traders DDL
(src/server.js 237: `play_money_balance NUMERIC(10,2) DEFAULT 100.00`),
applied by `INSERT INTO traders (user_id, user_type)` on lazy creation. -/
def initialTraderBalance : ℚ := 100

/-- A fresh primary key, one more than the largest key in use. -/
def freshId (ids : List Nat) : Nat := ids.foldl max 0 + 1

/-- UPDATE ... WHERE id = sid over the sessions table. -/
def updateSessions (sid : Nat) (f : SessionRec → SessionRec)
    (l : List SessionRec) : List SessionRec :=
  l.map (fun s => if s.id = sid then f s else s)

/-! ## Session State Store -/

inductive SessErr
  | notFound
  | notScheduled
  | alreadySettled
deriving DecidableEq

/-- Embedding of PATCH /sessions/:id/start (judging.js 736-762). -/
def startSession (sid : Nat) (trading_window_minutes : Option Nat) (now : Nat)
    (st : St) : St × Except SessErr SessionRec :=
  match st.sessions.find? (fun s => s.id = sid) with
  | none => (st, Except.error SessErr.notFound)
  | some sess =>
    if ¬ sess.status = SessStatus.scheduled then
      (st, Except.error SessErr.notScheduled)
    else
      let twe := trading_window_minutes.map (fun m => now + m * 60000)
      let upd : SessionRec → SessionRec := fun s =>
        { s with status := SessStatus.live, actual_start := some now,
                 trading_window_end := twe }
      ({ st with sessions := updateSessions sid upd st.sessions },
       Except.ok (upd sess))

/-! ## Judge Qualification Gate -/

inductive ApplyErr
  | alreadyJudge
  | pendingApplication
  | cooldown (next_attempt_date : Nat)
deriving DecidableEq

/-- Of two applications, the one created later (earlier argument kept on
ties, standing in for the arbitrary order of `ORDER BY created_at DESC`). -/
def newerApp (a b : JudgeApplication) : JudgeApplication :=
  if a.created_at < b.created_at then b else a

def latestAppAcc (acc : Option JudgeApplication) (a : JudgeApplication) :
    Option JudgeApplication :=
  match acc with
  | none => some a
  | some b => some (newerApp b a)

/-- The user's applications (`WHERE user_id = $1 AND user_type = $2`). -/
def appsOf (uid : Nat) (role : Role) (apps : List JudgeApplication) :
    List JudgeApplication :=
  apps.filter (fun a => a.user_id = uid ∧ a.user_type = role)

/-- The row `ORDER BY created_at DESC LIMIT 1` of the user's applications. -/
def latestAppOf (uid : Nat) (role : Role) (apps : List JudgeApplication) :
    Option JudgeApplication :=
  (appsOf uid role apps).foldl latestAppAcc none

/-- Embedding of POST /judges/apply (judging.js 20-74): reject when a
judges row exists for the identity (any status), when the most recent
application is pending/screening, or when it is rejected with a future
`next_attempt_date`; otherwise insert a new screening application. -/
def applyJudge (uid : Nat) (role : Role) (now : Nat) (st : St) :
    St × Except ApplyErr JudgeApplication :=
  match st.judges.find? (fun j => j.user_id = uid ∧ j.user_type = role) with
  | some _ => (st, Except.error ApplyErr.alreadyJudge)
  | none =>
    let blocked : Option ApplyErr :=
      match latestAppOf uid role st.applications with
      | none => none
      | some a =>
        if a.status = AppStatus.pending ∨ a.status = AppStatus.screening then
          some ApplyErr.pendingApplication
        else
          match a.next_attempt_date with
          | some d =>
              if a.status = AppStatus.rejected ∧ now < d then
                some (ApplyErr.cooldown d)
              else none
          | none => none
    match blocked with
    | some e => (st, Except.error e)
    | none =>
      let attempts := (appsOf uid role st.applications).length + 1
      let app : JudgeApplication :=
        ⟨freshId (st.applications.map (fun a => a.id)), uid, role,
         AppStatus.screening, attempts, none, none, none, now⟩
      ({ st with applications := st.applications ++ [app] }, Except.ok app)

inductive ScrErr
  | notFound
  | notScreening
  | ratingsRequired
  | noValidAnchors
deriving DecidableEq

/-- The response body of a screening submission. -/
structure ScrResult where
  passed : Bool
  score : ℚ
  avgDeviation : ℚ
  next_attempt_date : Option Nat
deriving DecidableEq

/-- Milliseconds in 7 days — the re-application cooldown. -/
def cooldownMs : Nat := 7 * 24 * 60 * 60 * 1000

/-- The scoring loop of the screening submission (judging.js 133-144):
count and total absolute deviations over the ratings whose anchor id
resolves; unmatched ids are skipped. -/
def screenRatings (anchors : List AnchorSong) (ratings : List (Nat × ℚ)) :
    Nat × ℚ :=
  ratings.foldl
    (fun acc p =>
      match anchors.find? (fun a => a.id = p.1) with
      | none => acc
      | some a => (acc.1 + 1, acc.2 + |p.2 - a.correct_rating|))
    (0, 0)

/-- The statement `INSERT ... ON CONFLICT (user_id, user_type) DO UPDATE SET status = 'active'`. -/
def upsertActiveJudge (uid : Nat) (role : Role) (judges : List JudgeRec) :
    List JudgeRec :=
  if (judges.find? (fun j => j.user_id = uid ∧ j.user_type = role)).isSome then
    judges.map (fun j =>
      if j.user_id = uid ∧ j.user_type = role then
        { j with status := JudgeStatus.active }
      else j)
  else
    judges ++ [⟨freshId (judges.map (fun j => j.id)), uid, role,
               JudgeStatus.active, 0, 0⟩]

/-- Embedding of POST /judges/screening/:applicationId/submit
(judging.js 113-182). -/
def submitScreening (appId uid : Nat) (role : Role) (ratings : List (Nat × ℚ))
    (now : Nat) (st : St) : St × Except ScrErr ScrResult :=
  match st.applications.find?
      (fun a => a.id = appId ∧ a.user_id = uid ∧ a.user_type = role) with
  | none => (st, Except.error ScrErr.notFound)
  | some app =>
    if ¬ app.status = AppStatus.screening then (st, Except.error ScrErr.notScreening)
    else if ratings.isEmpty then (st, Except.error ScrErr.ratingsRequired)
    else
      let sc := screenRatings st.anchor_songs ratings
      if sc.1 = 0 then (st, Except.error ScrErr.noValidAnchors)
      else
        let avgDeviation := sc.2 / sc.1
        let score := max 0 (100 - avgDeviation * 2)
        let passed := decide (60 ≤ score ∧ avgDeviation ≤ 15)
        if passed then
          ({ st with
             judges := upsertActiveJudge uid role st.judges,
             applications := st.applications.map (fun a =>
               if a.id = appId then
                 { a with status := AppStatus.approved,
                          screening_score := some score,
                          screening_deviation := some avgDeviation }
               else a) },
           Except.ok ⟨true, score, avgDeviation, none⟩)
        else
          let nextAttempt := now + cooldownMs
          ({ st with applications := st.applications.map (fun a =>
               if a.id = appId then
                 { a with status := AppStatus.rejected,
                          screening_score := some score,
                          screening_deviation := some avgDeviation,
                          next_attempt_date := some nextAttempt }
               else a) },
           Except.ok ⟨false, score, avgDeviation, some nextAttempt⟩)

/-! ## Trading Engine -/

inductive TradeErr
  | missingFields
  | badDirection
  | badAmount
  | sessionNotFound
  | sessionNotLive
  | windowClosed
  | insufficientBalance
  | duplicateTrade
  | insertFailed
deriving DecidableEq

/-- The check `trading_window_end && new Date(trading_window_end) < new Date()`. -/
def windowClosed (sess : SessionRec) (now : Nat) : Bool :=
  match sess.trading_window_end with
  | none => false
  | some t => t < now

/-- A pending trade already exists for (session, userId, userType). -/
def hasPendingTrade (uid : Nat) (role : Role) (sid : Nat)
    (trades : List TradeRec) : Bool :=
  trades.any (fun t => t.session_id = sid ∧ t.user_id = uid ∧
    t.user_type = role ∧ t.status = TradeStatus.pending)

def newTrader (id uid : Nat) (role : Role) : Trader :=
  ⟨id, uid, role, initialTraderBalance, 0, 0, 0, 0, 0, 0, none⟩

/-- The sequence `SELECT ... FROM traders` then `INSERT` when absent (judging.js 417-427). -/
def getOrCreateTrader (uid : Nat) (role : Role) (st : St) : St × Trader :=
  match st.traders.find? (fun t => t.user_id = uid ∧ t.user_type = role) with
  | some t => (st, t)
  | none =>
      let t := newTrader (freshId (st.traders.map (fun x => x.id))) uid role
      ({ st with traders := st.traders ++ [t] }, t)

/-- The statement `UPDATE traders SET play_money_balance = play_money_balance - $1,
total_trades = total_trades + 1, last_trade_at = NOW() WHERE id = $2`. -/
def debitTrader (tid : Nat) (amount : ℚ) (now : Nat) (l : List Trader) :
    List Trader :=
  l.map (fun t =>
    if t.id = tid then
      { t with play_money_balance := t.play_money_balance - amount,
               total_trades := t.total_trades + 1,
               last_trade_at := some now }
    else t)

def parseDirection (direction : String) : Direction :=
  if direction = "over" then Direction.over else Direction.under

/-- The balance the trade-placement balance check sees: the stored
balance when a trader row exists, else the initial balance of the row
that is lazily created. -/
def effBalance (uid : Nat) (role : Role) (st : St) : ℚ :=
  match st.traders.find? (fun t => t.user_id = uid ∧ t.user_type = role) with
  | some t => t.play_money_balance
  | none => initialTraderBalance

/-- Embedding of POST /trades (judging.js 387-472). `insertOk` models
whether the `INSERT INTO trades` statement succeeds: the handler issues
the balance debit and the trade insert as two separate statements with
no surrounding transaction, so when the insert fails the debit has
already been committed and is not rolled back. -/
def placeTradeWith (insertOk : Bool) (uid : Nat) (role : Role) (sid : Nat)
    (direction : String) (amount : ℚ) (now : Nat) (st : St) :
    St × Except TradeErr TradeRec :=
  if sid = 0 ∨ direction = "" ∨ amount = 0 then
    (st, Except.error TradeErr.missingFields)
  else if ¬ (direction = "over" ∨ direction = "under") then
    (st, Except.error TradeErr.badDirection)
  else if amount ≤ 0 ∨ 50 < amount then (st, Except.error TradeErr.badAmount)
  else
    match st.sessions.find? (fun s => s.id = sid) with
    | none => (st, Except.error TradeErr.sessionNotFound)
    | some sess =>
      if ¬ sess.status = SessStatus.live then
        (st, Except.error TradeErr.sessionNotLive)
      else if windowClosed sess now then
        (st, Except.error TradeErr.windowClosed)
      else
        let p := getOrCreateTrader uid role st
        if p.2.play_money_balance < amount then
          (p.1, Except.error TradeErr.insufficientBalance)
        else if hasPendingTrade uid role sid p.1.trades then
          (p.1, Except.error TradeErr.duplicateTrade)
        else
          let entry := jsOr (consensusOf sid p.1.snapshots) 50
          let st2 := { p.1 with traders := debitTrader p.2.id amount now p.1.traders }
          let trade : TradeRec :=
            ⟨freshId (st2.trades.map (fun x => x.id)), sid, uid, role, p.2.id,
             parseDirection direction, entry, amount, TradeStatus.pending,
             none, none, none⟩
          if insertOk then
            ({ st2 with trades := st2.trades ++ [trade] }, Except.ok trade)
          else (st2, Except.error TradeErr.insertFailed)

/-- POST /trades with the insert succeeding (the non-faulty execution). -/
def placeTrade (uid : Nat) (role : Role) (sid : Nat) (direction : String)
    (amount : ℚ) (now : Nat) (st : St) : St × Except TradeErr TradeRec :=
  placeTradeWith true uid role sid direction amount now st

/-! ## Settlement Engine -/

/-- Outcome resolution of one pending trade (judging.js 816-828): push is
checked first, then the directional win conditions, else loss. -/
def resolveTrade (finalConsensus entry amount : ℚ) (d : Direction) :
    Outcome × ℚ :=
  if |finalConsensus - entry| < 0.5 then (Outcome.push, amount)
  else if d = Direction.over ∧ entry < finalConsensus then
    (Outcome.win, amount * 1.8)
  else if d = Direction.under ∧ finalConsensus < entry then
    (Outcome.win, amount * 1.8)
  else (Outcome.loss, 0)

/-- The per-outcome trader UPDATE statements (judging.js 837-865). -/
def settleTraderUpdate (t : Trader) (outcome : Outcome) (amount payout : ℚ) :
    Trader :=
  match outcome with
  | Outcome.win =>
      { t with play_money_balance := t.play_money_balance + payout,
               winning_trades := t.winning_trades + 1,
               current_streak := t.current_streak + 1,
               best_streak := max t.best_streak (t.current_streak + 1),
               total_profit_loss := t.total_profit_loss + (payout - amount) }
  | Outcome.loss =>
      { t with losing_trades := t.losing_trades + 1,
               current_streak := 0,
               total_profit_loss := t.total_profit_loss - amount }
  | Outcome.push =>
      { t with play_money_balance := t.play_money_balance + payout }

/-- Resolution of one pending trade during settlement: mark the trade
settled and update the owning trader row. -/
def settleOneTrade (finalConsensus : ℚ) (t : TradeRec) (st : St) : St :=
  let r := resolveTrade finalConsensus t.entry_sentiment t.amount t.direction
  { st with
    trades := st.trades.map (fun x =>
      if x.id = t.id then
        { x with status := TradeStatus.settled, outcome := some r.1,
                 final_sentiment := some finalConsensus, payout := some r.2 }
      else x),
    traders := st.traders.map (fun x =>
      if x.id = t.trader_id then settleTraderUpdate x r.1 t.amount r.2 else x) }

/-- The response body of a settlement. -/
structure SettleResult where
  finalConsensus : ℚ
  judgeCount : Nat
  tradesSettled : Nat
deriving DecidableEq

/-- Embedding of POST /sessions/:id/settle (judging.js 765-906). -/
def settleSession (sid now : Nat) (st : St) : St × Except SessErr SettleResult :=
  match st.sessions.find? (fun s => s.id = sid) with
  | none => (st, Except.error SessErr.notFound)
  | some sess =>
    if sess.status = SessStatus.completed then
      (st, Except.error SessErr.alreadySettled)
    else
      let finalConsensus := jsOr (consensusOf sid st.snapshots) 0
      let jc := judgeCountOf sid st.snapshots
      let st1 := { st with sessions := updateSessions sid (fun s =>
        { s with status := SessStatus.completed,
                 final_consensus := some finalConsensus,
                 judge_count := jc, end_time := some now }) st.sessions }
      let pending := st1.trades.filter (fun t =>
        t.session_id = sid ∧ t.status = TradeStatus.pending)
      let st2 := pending.foldl (fun acc t => settleOneTrade finalConsensus t acc) st1
      let sessionSnaps := snapsFor sid st.snapshots
      let st3 := { st2 with judges := st2.judges.map (fun j =>
        if j.id ∈ contributingJudges sessionSnaps then
          { j with sessions_judged := j.sessions_judged + 1,
                   total_ratings := j.total_ratings +
                     (snapsOfJudge j.id sessionSnaps).length }
        else j) }
      (st3, Except.ok ⟨round2 finalConsensus, jc, pending.length⟩)

/-! ## Realtime Broadcast Channel -/

/-- The payload of a `consensus-update` room broadcast. -/
structure ConsensusEvent where
  consensus : ℚ
  judgeCount : Nat
deriving DecidableEq

/-- Embedding of the socket `submit-rating` handler: returns the updated
store and the broadcast event, or `none` when the message is silently
dropped (sender not an active judge, or session not live). -/
def submitRating (uid : Nat) (role : Role) (sid : Nat) (rating : ℚ)
    (now : Nat) (st : St) : St × Option ConsensusEvent :=
  match st.judges.find? (fun j => j.user_id = uid ∧ j.user_type = role ∧
      j.status = JudgeStatus.active) with
  | none => (st, none)
  | some judge =>
    match st.sessions.find? (fun s => s.id = sid ∧ s.status = SessStatus.live) with
    | none => (st, none)
    | some _ =>
      let clamped : Int := max 0 (min 100 (jsRound rating))
      let snaps2 := st.snapshots ++ [⟨sid, judge.id, clamped, now⟩]
      let consensusValue := jsOr (consensusOf sid snaps2) 0
      let jc := judgeCountOf sid snaps2
      let st2 := { st with snapshots := snaps2,
                           sessions := updateSessions sid
                             (fun s => { s with judge_count := jc }) st.sessions }
      (st2, some ⟨round2 consensusValue, jc⟩)

/-- Whether an `Except` value is ok, as a plain definition. -/
def exceptOk {ε α : Type} : Except ε α → Bool
  | Except.ok _ => true
  | Except.error _ => false

/-! ## Concrete stores used by witnesses and counterexamples -/

/-- A store with one scheduled session and nothing else. -/
def stScheduled : St :=
  ⟨[⟨1, SessStatus.scheduled, none, none, none, none, 0⟩], [], [], [], [], [], []⟩

/-- A store with one live session (no trading window), one trader
(user 7, listener, untouched balance) and one active judge. -/
def stLive : St :=
  ⟨[⟨1, SessStatus.live, none, some 0, none, none, 0⟩], [],
   [⟨1, 7, Role.listener, 100, 0, 0, 0, 0, 0, 0, none⟩], [],
   [⟨1, 9, Role.creator, JudgeStatus.active, 0, 0⟩], [], []⟩

/-- A store whose only judge record is suspended. -/
def stSuspendedJudge : St :=
  ⟨[], [], [], [], [⟨1, 7, Role.listener, JudgeStatus.suspended, 0, 0⟩], [], []⟩

/-- A store with one screening application and one anchor song. -/
def stScreening : St :=
  ⟨[], [], [], [], [],
   [⟨1, 7, Role.listener, AppStatus.screening, 1, none, none, none, 0⟩],
   [⟨1, 70, 10, true⟩]⟩

/-! ### Lemmas about the latest-per-judge selection -/

lemma latestAcc_isSome (acc : Option Snapshot) (s : Snapshot) :
    (latestAcc acc s).isSome := by
  cases acc <;> simp [latestAcc]

lemma foldl_latestAcc_isSome (l : List Snapshot) (a : Snapshot)
    (acc : Option Snapshot) :
    (List.foldl latestAcc (some a) l).isSome ∧
      (l ≠ [] → (List.foldl latestAcc acc l).isSome) := by
  induction l generalizing a acc with
  | nil => simp
  | cons x xs ih =>
      constructor
      · rcases Option.isSome_iff_exists.mp (latestAcc_isSome (some a) x) with ⟨b, hb⟩
        simpa [List.foldl_cons, hb] using (ih b (some b)).1
      · intro _
        rcases Option.isSome_iff_exists.mp (latestAcc_isSome acc x) with ⟨b, hb⟩
        simpa [List.foldl_cons, hb] using (ih b (some b)).1

lemma pickLatest_isSome {l : List Snapshot} (h : l ≠ []) :
    (pickLatest l).isSome :=
  (foldl_latestAcc_isSome l ⟨0, 0, 0, 0⟩ none).2 h

lemma newer_le_left (a b : Snapshot) : a.timestamp ≤ (newer a b).timestamp := by
  unfold newer
  split <;> omega

lemma newer_le_right (a b : Snapshot) : b.timestamp ≤ (newer a b).timestamp := by
  unfold newer
  split <;> omega

/-- The accumulator can only gain timestamp along a fold of `latestAcc`. -/
lemma foldl_latestAcc_mono (l : List Snapshot) (a b : Snapshot)
    (h : List.foldl latestAcc (some a) l = some b) :
    a.timestamp ≤ b.timestamp := by
  induction l generalizing a with
  | nil => simp_all
  | cons x xs ih =>
      simp only [List.foldl_cons, latestAcc] at h
      exact le_trans (newer_le_left a x) (ih (newer a x) h)

/-- The fold of `latestAcc` returns a snapshot whose timestamp dominates
every element of the list. -/
lemma foldl_latestAcc_max (l : List Snapshot) (acc : Option Snapshot)
    (b : Snapshot) (h : List.foldl latestAcc acc l = some b) :
    ∀ x ∈ l, x.timestamp ≤ b.timestamp := by
  induction l generalizing acc with
  | nil => simp
  | cons y ys ih =>
      intro x hx
      simp only [List.foldl_cons] at h
      rcases List.mem_cons.mp hx with rfl | hmem
      · have hsome : ∃ c, latestAcc acc x = some c ∧ x.timestamp ≤ c.timestamp := by
          cases acc with
          | none => exact ⟨x, rfl, le_refl _⟩
          | some a => exact ⟨newer a x, rfl, newer_le_right a x⟩
        rcases hsome with ⟨c, hc, hxc⟩
        rw [hc] at h
        exact le_trans hxc (foldl_latestAcc_mono ys c b h)
      · exact ih _ h x hmem

lemma pickLatest_max {l : List Snapshot} {b : Snapshot}
    (h : pickLatest l = some b) : ∀ x ∈ l, x.timestamp ≤ b.timestamp :=
  foldl_latestAcc_max l none b h

/-- Appending a snapshot that is strictly older than the current latest
does not change the latest. -/
lemma pickLatest_append_older {l : List Snapshot} {b : Snapshot} (s : Snapshot)
    (hb : pickLatest l = some b) (hold : s.timestamp < b.timestamp) :
    pickLatest (l ++ [s]) = some b := by
  unfold pickLatest at hb ⊢
  rw [List.foldl_append, hb]
  simp only [List.foldl_cons, List.foldl_nil, latestAcc, newer]
  rw [if_neg (by omega)]

/-! ### Lemmas about contributing judges and latest ratings -/

lemma mem_contributingJudges {j : Nat} {l : List Snapshot} :
    j ∈ contributingJudges l ↔ ∃ s ∈ l, s.judge_id = j := by
  simp [contributingJudges, List.mem_dedup, List.mem_map]

lemma length_filterMap_of_forall_isSome {α β : Type} (f : α → Option β)
    (l : List α) (h : ∀ a ∈ l, (f a).isSome) :
    (l.filterMap f).length = l.length := by
  induction l with
  | nil => rfl
  | cons x xs ih =>
      rcases Option.isSome_iff_exists.mp (h x (List.mem_cons_self x xs)) with ⟨b, hb⟩
      simp only [List.filterMap_cons, hb, List.length_cons]
      rw [ih (fun a ha => h a (List.mem_cons_of_mem x ha))]

lemma snapsOfJudge_ne_nil {j : Nat} {l : List Snapshot}
    (h : j ∈ contributingJudges l) : snapsOfJudge j l ≠ [] := by
  rcases mem_contributingJudges.mp h with ⟨s, hs, hj⟩
  have : s ∈ snapsOfJudge j l := by
    simp [snapsOfJudge, List.mem_filter, hs, hj]
  intro hnil
  rw [hnil] at this
  exact absurd this (List.not_mem_nil s)

lemma latestRatings_length (l : List Snapshot) :
    (latestRatings l).length = (contributingJudges l).length := by
  unfold latestRatings
  apply length_filterMap_of_forall_isSome
  intro j hj
  rcases Option.isSome_iff_exists.mp (pickLatest_isSome (snapsOfJudge_ne_nil hj)) with
    ⟨b, hb⟩
  simp [hb]

lemma snapsFor_append (sid : Nat) (ledger : List Snapshot) (s : Snapshot) :
    snapsFor sid (ledger ++ [s]) =
      snapsFor sid ledger ++ (if s.session_id = sid then [s] else []) := by
  simp only [snapsFor, List.filter_append]
  congr 1
  by_cases h : s.session_id = sid <;> simp [h]

lemma snapsOfJudge_append (j : Nat) (l : List Snapshot) (s : Snapshot) :
    snapsOfJudge j (l ++ [s]) =
      snapsOfJudge j l ++ (if s.judge_id = j then [s] else []) := by
  simp only [snapsOfJudge, List.filter_append]
  congr 1
  by_cases h : s.judge_id = j <;> simp [h]

lemma contributingJudges_append_perm {l : List Snapshot} {s : Snapshot}
    (h : s.judge_id ∈ contributingJudges l) :
    (contributingJudges (l ++ [s])).Perm (contributingJudges l) := by
  apply List.toFinset_eq_iff_perm_dedup.mp
  rw [List.map_append]
  simp only [List.toFinset_append, List.map_cons, List.map_nil]
  have hj : s.judge_id ∈ (l.map (fun t => t.judge_id)).toFinset := by
    rcases mem_contributingJudges.mp h with ⟨t, ht, hid⟩
    simp only [List.mem_toFinset, List.mem_map]
    exact ⟨t, ht, hid⟩
  ext a
  simp only [Finset.mem_union, List.mem_toFinset, List.mem_cons, List.not_mem_nil,
    or_false, List.mem_singleton]
  constructor
  · rintro (ha | rfl)
    · exact ha
    · exact List.mem_toFinset.mp hj
  · exact fun ha => Or.inl ha

/-- Appending a snapshot that is strictly older than its judge's newest
snapshot leaves every judge's latest rating unchanged. -/
lemma latestRating_append_older {l : List Snapshot} {s s' : Snapshot}
    (hs' : s' ∈ l) (hid : s'.judge_id = s.judge_id)
    (hts : s.timestamp < s'.timestamp) (j : Nat) :
    (pickLatest (snapsOfJudge j (l ++ [s]))).map (fun t => t.rating) =
      (pickLatest (snapsOfJudge j l)).map (fun t => t.rating) := by
  rw [snapsOfJudge_append]
  by_cases hj : s.judge_id = j
  · rw [if_pos hj]
    have hmem : s' ∈ snapsOfJudge j l := by
      simp [snapsOfJudge, List.mem_filter, hs', hid, hj]
    have hne : snapsOfJudge j l ≠ [] := by
      intro hnil
      rw [hnil] at hmem
      exact absurd hmem (List.not_mem_nil s')
    rcases Option.isSome_iff_exists.mp (pickLatest_isSome hne) with ⟨b, hb⟩
    have hsb : s.timestamp < b.timestamp :=
      lt_of_lt_of_le hts (pickLatest_max hb s' hmem)
    rw [pickLatest_append_older s hb hsb, hb]
  · rw [if_neg hj, List.append_nil]

lemma latestRatings_append_older {l : List Snapshot} {s s' : Snapshot}
    (hs' : s' ∈ l) (hid : s'.judge_id = s.judge_id)
    (hts : s.timestamp < s'.timestamp) :
    (latestRatings (l ++ [s])).Perm (latestRatings l) := by
  have hjmem : s.judge_id ∈ contributingJudges l :=
    mem_contributingJudges.mpr ⟨s', hs', hid⟩
  unfold latestRatings
  have hcong :
      (contributingJudges (l ++ [s])).filterMap
          (fun j => (pickLatest (snapsOfJudge j (l ++ [s]))).map (fun t => t.rating)) =
        (contributingJudges (l ++ [s])).filterMap
          (fun j => (pickLatest (snapsOfJudge j l)).map (fun t => t.rating)) := by
    apply List.filterMap_congr
    intro j _
    exact latestRating_append_older hs' hid hts j
  rw [hcong]
  exact (contributingJudges_append_perm hjmem).filterMap _

lemma consensusOf_append_older {sid : Nat} {ledger : List Snapshot}
    {s s' : Snapshot} (hs' : s' ∈ snapsFor sid ledger)
    (hid : s'.judge_id = s.judge_id) (hts : s.timestamp < s'.timestamp) :
    consensusOf sid (ledger ++ [s]) = consensusOf sid ledger ∧
      judgeCountOf sid (ledger ++ [s]) = judgeCountOf sid ledger := by
  by_cases hsid : s.session_id = sid
  · have hfilter : snapsFor sid (ledger ++ [s]) = snapsFor sid ledger ++ [s] := by
      rw [snapsFor_append, if_pos hsid]
    have hperm : (latestRatings (snapsFor sid ledger ++ [s])).Perm
        (latestRatings (snapsFor sid ledger)) :=
      latestRatings_append_older hs' hid hts
    have hjudges : (contributingJudges (snapsFor sid ledger ++ [s])).Perm
        (contributingJudges (snapsFor sid ledger)) :=
      contributingJudges_append_perm (mem_contributingJudges.mpr ⟨s', hs', hid⟩)
    constructor
    · unfold consensusOf
      rw [hfilter]
      have hlen : (latestRatings (snapsFor sid ledger ++ [s])).length =
          (latestRatings (snapsFor sid ledger)).length := hperm.length_eq
      have hsum : qsum (latestRatings (snapsFor sid ledger ++ [s])) =
          qsum (latestRatings (snapsFor sid ledger)) :=
        (hperm.map _).sum_eq
      have hemp : (latestRatings (snapsFor sid ledger ++ [s])).isEmpty =
          (latestRatings (snapsFor sid ledger)).isEmpty := by
        cases hM : (latestRatings (snapsFor sid ledger)).isEmpty
        · cases hN : (latestRatings (snapsFor sid ledger ++ [s])).isEmpty
          · rfl
          · exfalso
            have h1 := List.isEmpty_iff.mp hN
            rw [h1] at hperm
            rw [hperm.symm.eq_nil] at hM
            simp at hM
        · have h1 := List.isEmpty_iff.mp hM
          rw [h1] at hperm
          rw [hperm.eq_nil]
          rfl
      rw [hemp, hlen, hsum]
    · unfold judgeCountOf
      rw [hfilter]
      exact hjudges.length_eq
  · have hfilter : snapsFor sid (ledger ++ [s]) = snapsFor sid ledger := by
      rw [snapsFor_append, if_neg hsid, List.append_nil]
    unfold consensusOf judgeCountOf
    rw [hfilter]
    exact ⟨rfl, rfl⟩

/-! ### Lemmas about the store operations -/

lemma find_updateSessions (sid : Nat) (f : SessionRec → SessionRec)
    (l : List SessionRec) (hf : ∀ s, (f s).id = s.id) :
    (updateSessions sid f l).find? (fun s => s.id = sid) =
      (l.find? (fun s => s.id = sid)).map f := by
  induction l with
  | nil => rfl
  | cons x xs ih =>
      by_cases hx : x.id = sid
      · have hfx : (f x).id = sid := by rw [hf x, hx]
        simp [updateSessions, hx, hfx]
      · have hgx : (if x.id = sid then f x else x) = x := if_neg hx
        simp only [updateSessions, List.map_cons, hgx, List.find?_cons]
        rw [decide_eq_false hx]
        exact ih

lemma getOrCreateTrader_sessions (uid : Nat) (role : Role) (st : St) :
    (getOrCreateTrader uid role st).1.sessions = st.sessions := by
  unfold getOrCreateTrader
  cases st.traders.find? (fun t => t.user_id = uid ∧ t.user_type = role) <;> rfl

lemma getOrCreateTrader_snapshots (uid : Nat) (role : Role) (st : St) :
    (getOrCreateTrader uid role st).1.snapshots = st.snapshots := by
  unfold getOrCreateTrader
  cases st.traders.find? (fun t => t.user_id = uid ∧ t.user_type = role) <;> rfl

lemma getOrCreateTrader_trades (uid : Nat) (role : Role) (st : St) :
    (getOrCreateTrader uid role st).1.trades = st.trades := by
  unfold getOrCreateTrader
  cases st.traders.find? (fun t => t.user_id = uid ∧ t.user_type = role) <;> rfl

lemma getOrCreateTrader_balance (uid : Nat) (role : Role) (st : St) :
    (getOrCreateTrader uid role st).2.play_money_balance =
      effBalance uid role st := by
  unfold getOrCreateTrader effBalance
  cases st.traders.find? (fun t => t.user_id = uid ∧ t.user_type = role) <;> rfl

lemma getOrCreateTrader_found {uid : Nat} {role : Role} {st : St} {t : Trader}
    (h : st.traders.find? (fun t => t.user_id = uid ∧ t.user_type = role) = some t) :
    (getOrCreateTrader uid role st).1 = st := by
  unfold getOrCreateTrader
  rw [h]

lemma settleOneTrade_sessions (f : ℚ) (t : TradeRec) (st : St) :
    (settleOneTrade f t st).sessions = st.sessions := rfl

lemma find?_id_eq {sid : Nat} {l : List SessionRec} {sess : SessionRec}
    (hfind : l.find? (fun s => s.id = sid) = some sess) : sess.id = sid := by
  have h := List.find?_some hfind
  simpa using h

lemma mem_updateSessions_of_find? {sid : Nat} {l : List SessionRec}
    {sess : SessionRec} (hfind : l.find? (fun s => s.id = sid) = some sess)
    (f : SessionRec → SessionRec) : f sess ∈ updateSessions sid f l :=
  List.mem_map.mpr ⟨sess, List.mem_of_find?_eq_some hfind,
    by rw [if_pos (find?_id_eq hfind)]⟩

lemma foldl_settleOneTrade_sessions (f : ℚ) (l : List TradeRec) (st : St) :
    (l.foldl (fun acc t => settleOneTrade f t acc) st).sessions =
      st.sessions := by
  induction l generalizing st with
  | nil => rfl
  | cons x xs ih =>
      rw [List.foldl_cons, ih (settleOneTrade f x st),
        settleOneTrade_sessions]

lemma exceptOk_eq_true {ε α : Type} {e : Except ε α}
    (h : exceptOk e = true) : ∃ a, e = Except.ok a := by
  cases e with
  | error _ => simp [exceptOk] at h
  | ok a => exact ⟨a, rfl⟩

/-- What a successful start does to the sessions table. -/
lemma startSession_ok {sid : Nat} {wm : Option Nat} {now : Nat} {st st' : St}
    {res : SessionRec} (h : startSession sid wm now st = (st', Except.ok res)) :
    ∃ sess, st.sessions.find? (fun s => s.id = sid) = some sess ∧
      sess.status = SessStatus.scheduled ∧
      st'.sessions = updateSessions sid (fun s =>
        { s with status := SessStatus.live, actual_start := some now,
                 trading_window_end := wm.map (fun m => now + m * 60000) })
        st.sessions := by
  unfold startSession at h
  cases hfind : st.sessions.find? (fun s => s.id = sid) with
  | none =>
      rw [hfind] at h
      simp at h
  | some sess =>
      rw [hfind] at h
      dsimp only at h
      by_cases hsched : sess.status = SessStatus.scheduled
      · rw [if_neg (not_not_intro hsched)] at h
        have h1 := congrArg Prod.fst h
        dsimp only at h1
        refine ⟨sess, rfl, hsched, ?_⟩
        rw [← h1]
      · rw [if_pos hsched] at h
        simp at h

/-- What a successful settlement returns and does to the sessions table. -/
lemma settleSession_ok {sid now : Nat} {st st' : St} {r : SettleResult}
    (h : settleSession sid now st = (st', Except.ok r)) :
    ∃ sess, st.sessions.find? (fun s => s.id = sid) = some sess ∧
      ¬ sess.status = SessStatus.completed ∧
      r.finalConsensus = round2 (jsOr (consensusOf sid st.snapshots) 0) ∧
      r.judgeCount = judgeCountOf sid st.snapshots ∧
      st'.sessions = updateSessions sid (fun s =>
        { s with status := SessStatus.completed,
                 final_consensus := some (jsOr (consensusOf sid st.snapshots) 0),
                 judge_count := judgeCountOf sid st.snapshots,
                 end_time := some now }) st.sessions := by
  unfold settleSession at h
  cases hfind : st.sessions.find? (fun s => s.id = sid) with
  | none =>
      rw [hfind] at h
      simp at h
  | some sess =>
      rw [hfind] at h
      dsimp only at h
      by_cases hc : sess.status = SessStatus.completed
      · rw [if_pos hc] at h
        simp at h
      · rw [if_neg hc] at h
        have h1 := congrArg Prod.fst h
        have h2 := congrArg Prod.snd h
        dsimp only at h1 h2
        have hr := Except.ok.inj h2
        refine ⟨sess, rfl, hc, ?_, ?_, ?_⟩
        · rw [← hr]
        · rw [← hr]
        · rw [← h1]
          exact foldl_settleOneTrade_sessions _ _ _

/-- The screening scoring fold counts the matched ratings and sums their
absolute deviations, starting from an arbitrary accumulator. -/
lemma screenRatings_acc (anchors : List AnchorSong) (ratings : List (Nat × ℚ))
    (n : Nat) (t : ℚ) :
    ratings.foldl
      (fun acc p =>
        match anchors.find? (fun a => a.id = p.1) with
        | none => acc
        | some a => (acc.1 + 1, acc.2 + |p.2 - a.correct_rating|)) (n, t) =
    (n + ratings.countP (fun p => (anchors.find? (fun a => a.id = p.1)).isSome),
     t + (ratings.filterMap (fun p =>
       (anchors.find? (fun a => a.id = p.1)).map
         (fun a => |p.2 - a.correct_rating|))).sum) := by
  induction ratings generalizing n t with
  | nil => simp
  | cons p ps ih =>
      cases hf : anchors.find? (fun a => a.id = p.1) with
      | none =>
          simp only [List.foldl_cons, hf, List.countP_cons,
            List.filterMap_cons]
          rw [ih]
          simp [hf]
      | some a =>
          simp only [List.foldl_cons, hf]
          rw [ih]
          simp [hf, List.countP_cons, List.filterMap_cons, Prod.ext_iff]
          constructor
          · omega
          · ring

/-- C1: for every session and every rating ledger, the consensus is the
arithmetic mean of the single most recent snapshot per distinct judge
(its product with judgeCount is the sum of those latest ratings),
judgeCount is the number of distinct contributing judges, the consensus
is null (`none`), not zero, exactly when judgeCount = 0, and appending a
snapshot older than its judge's newest snapshot changes neither the
consensus nor the judge count. -/
theorem consensus_calculator_spec (sid : Nat) (ledger : List Snapshot) :
    (consensusOf sid ledger = none ↔ judgeCountOf sid ledger = 0) ∧
    (∀ q : ℚ, consensusOf sid ledger = some q →
      (judgeCountOf sid ledger : ℚ) * q =
        qsum (latestRatings (snapsFor sid ledger))) ∧
    (∀ s : Snapshot,
      (∃ s' ∈ snapsFor sid ledger, s'.judge_id = s.judge_id ∧
        s.timestamp < s'.timestamp) →
      consensusOf sid (ledger ++ [s]) = consensusOf sid ledger ∧
        judgeCountOf sid (ledger ++ [s]) = judgeCountOf sid ledger) := by
  refine ⟨?_, ?_, ?_⟩
  · unfold consensusOf judgeCountOf
    rw [← latestRatings_length]
    cases hM : (latestRatings (snapsFor sid ledger)).isEmpty
    · simp only [hM, if_neg Bool.false_ne_true]
      constructor
      · intro h
        exact absurd h (by simp)
      · intro h
        rw [List.length_eq_zero.mp h] at hM
        simp at hM
    · simp only [hM, if_pos rfl]
      rw [List.isEmpty_iff.mp hM]
      simp
  · intro q hq
    unfold consensusOf at hq
    cases hM : (latestRatings (snapsFor sid ledger)).isEmpty
    · rw [hM] at hq
      simp only [if_neg Bool.false_ne_true, Option.some.injEq] at hq
      have hlen : judgeCountOf sid ledger =
          (latestRatings (snapsFor sid ledger)).length :=
        (latestRatings_length (snapsFor sid ledger)).symm
      rw [hlen, ← hq]
      have hne : ((latestRatings (snapsFor sid ledger)).length : ℚ) ≠ 0 := by
        rw [Nat.cast_ne_zero]
        intro h0
        rw [List.length_eq_zero.mp h0] at hM
        simp at hM
      rw [mul_comm]
      exact div_mul_cancel₀ _ hne
    · rw [hM] at hq
      simp at hq
  · rintro s ⟨s', hs', hid, hts⟩
    exact consensusOf_append_older hs' hid hts

/-- Witness for C1: appending an out-of-order older snapshot for judge 6
leaves the consensus of a concrete two-judge ledger unchanged. -/
theorem consensus_calculator_spec_witness :
    consensusOf 1 ([⟨1, 5, 70, 0⟩, ⟨1, 6, 80, 2⟩] ++ [⟨1, 6, 0, 1⟩]) =
      consensusOf 1 [⟨1, 5, 70, 0⟩, ⟨1, 6, 80, 2⟩] :=
  ((consensus_calculator_spec 1 [⟨1, 5, 70, 0⟩, ⟨1, 6, 80, 2⟩]).2.2
    ⟨1, 6, 0, 1⟩ ⟨⟨1, 6, 80, 2⟩, by decide, by decide, by decide⟩).1

/-- C2: outcome resolution checks push first (|final − entry| < 0.5 →
push, payout = amount), then win ((over ∧ final > entry) ∨ (under ∧
final < entry) → payout = amount × 1.8), else loss with payout 0; and the
owning trader row is updated per outcome exactly as the per-outcome rule
prescribes. -/
theorem trade_resolution_spec (f e a : ℚ) (d : Direction) (t : Trader) :
    (|f - e| < 0.5 → resolveTrade f e a d = (Outcome.push, a)) ∧
    (¬ |f - e| < 0.5 →
      (d = Direction.over ∧ e < f) ∨ (d = Direction.under ∧ f < e) →
      resolveTrade f e a d = (Outcome.win, a * 1.8)) ∧
    (¬ |f - e| < 0.5 →
      ¬ ((d = Direction.over ∧ e < f) ∨ (d = Direction.under ∧ f < e)) →
      resolveTrade f e a d = (Outcome.loss, 0)) ∧
    (∀ p : ℚ,
      (settleTraderUpdate t Outcome.win a p).play_money_balance =
          t.play_money_balance + p ∧
      (settleTraderUpdate t Outcome.win a p).winning_trades =
          t.winning_trades + 1 ∧
      (settleTraderUpdate t Outcome.win a p).current_streak =
          t.current_streak + 1 ∧
      (settleTraderUpdate t Outcome.win a p).best_streak =
          max t.best_streak (t.current_streak + 1) ∧
      (settleTraderUpdate t Outcome.win a p).total_profit_loss =
          t.total_profit_loss + (p - a) ∧
      (settleTraderUpdate t Outcome.win a p).losing_trades = t.losing_trades ∧
      (settleTraderUpdate t Outcome.loss a p).losing_trades =
          t.losing_trades + 1 ∧
      (settleTraderUpdate t Outcome.loss a p).current_streak = 0 ∧
      (settleTraderUpdate t Outcome.loss a p).total_profit_loss =
          t.total_profit_loss - a ∧
      (settleTraderUpdate t Outcome.loss a p).play_money_balance =
          t.play_money_balance ∧
      (settleTraderUpdate t Outcome.loss a p).winning_trades =
          t.winning_trades ∧
      (settleTraderUpdate t Outcome.loss a p).best_streak = t.best_streak ∧
      (settleTraderUpdate t Outcome.push a p).play_money_balance =
          t.play_money_balance + p ∧
      (settleTraderUpdate t Outcome.push a p).winning_trades =
          t.winning_trades ∧
      (settleTraderUpdate t Outcome.push a p).losing_trades =
          t.losing_trades ∧
      (settleTraderUpdate t Outcome.push a p).current_streak =
          t.current_streak ∧
      (settleTraderUpdate t Outcome.push a p).best_streak = t.best_streak ∧
      (settleTraderUpdate t Outcome.push a p).total_profit_loss =
          t.total_profit_loss) := by
  refine ⟨?_, ?_, ?_, ?_⟩
  · intro h
    simp [resolveTrade, h]
  · intro hnp hw
    rcases hw with ⟨hd, hlt⟩ | ⟨hd, hlt⟩ <;>
      (subst hd; simp [resolveTrade, hnp, hlt])
  · intro hnp hnw
    have h1 : ¬ (d = Direction.over ∧ e < f) := fun hc => hnw (Or.inl hc)
    have h2 : ¬ (d = Direction.under ∧ f < e) := fun hc => hnw (Or.inr hc)
    simp [resolveTrade, hnp, h1, h2]
  · intro p
    simp [settleTraderUpdate]

/-- Witness for C2: a 0.4-point gap resolves as a push with the stake
returned, even though the direction also satisfies the win inequality. -/
theorem trade_resolution_spec_witness :
    |(50.4 : ℚ) - 50| < 0.5 ∧
      resolveTrade 50.4 50 10 Direction.over = (Outcome.push, 10) :=
  ⟨by rw [abs_sub_lt_iff]; constructor <;> norm_num,
   (trade_resolution_spec 50.4 50 10 Direction.over
     ⟨1, 7, Role.listener, 100, 0, 0, 0, 0, 0, 0, none⟩).1
     (by rw [abs_sub_lt_iff]; constructor <;> norm_num)⟩

/-- C10: every settlement update preserves bestStreak ≥ currentStreak —
a win sets currentStreak + 1 and bestStreak = max(bestStreak,
currentStreak + 1) in the same update, a loss resets currentStreak to 0
leaving bestStreak unchanged, and a push touches neither field. -/
theorem streak_invariant_spec (t : Trader) (o : Outcome) (a p : ℚ)
    (h : t.current_streak ≤ t.best_streak) :
    (settleTraderUpdate t o a p).current_streak ≤
        (settleTraderUpdate t o a p).best_streak ∧
    (o = Outcome.win →
      (settleTraderUpdate t o a p).current_streak = t.current_streak + 1 ∧
      (settleTraderUpdate t o a p).best_streak =
        max t.best_streak (t.current_streak + 1)) ∧
    (o = Outcome.loss →
      (settleTraderUpdate t o a p).current_streak = 0 ∧
      (settleTraderUpdate t o a p).best_streak = t.best_streak) ∧
    (o = Outcome.push →
      (settleTraderUpdate t o a p).current_streak = t.current_streak ∧
      (settleTraderUpdate t o a p).best_streak = t.best_streak) := by
  cases o <;> (simp [settleTraderUpdate]; try omega)

/-- Witness for C10: the invariant holds after a win applied to a trader
with currentStreak 2 and bestStreak 5. -/
theorem streak_invariant_spec_witness :
    (settleTraderUpdate ⟨1, 7, Role.listener, 100, 3, 1, 1, 0, 2, 5, none⟩
        Outcome.win 10 18).current_streak ≤
      (settleTraderUpdate ⟨1, 7, Role.listener, 100, 3, 1, 1, 0, 2, 5, none⟩
        Outcome.win 10 18).best_streak :=
  (streak_invariant_spec ⟨1, 7, Role.listener, 100, 3, 1, 1, 0, 2, 5, none⟩
    Outcome.win 10 18 (by decide)).1

/-- C3 evidence: when the trades INSERT fails after the balance debit has
been issued (no surrounding transaction), the resulting store has the
trader debited (balance 90, totalTrades 1) with no Trade row at all. -/
theorem debit_without_trade_row :
    (placeTradeWith false 7 Role.listener 1 "over" 10 0 stLive).2 =
      Except.error TradeErr.insertFailed ∧
    (placeTradeWith false 7 Role.listener 1 "over" 10 0 stLive).1.traders.map
        (fun t => t.play_money_balance) = [90] ∧
    (placeTradeWith false 7 Role.listener 1 "over" 10 0 stLive).1.traders.map
        (fun t => t.total_trades) = [1] ∧
    (placeTradeWith false 7 Role.listener 1 "over" 10 0 stLive).1.trades = [] := by
  have hs : ¬ ("over" = "") := by decide
  norm_num [placeTradeWith, stLive, getOrCreateTrader, debitTrader,
    hasPendingTrade, windowClosed, consensusOf, jsOr, snapsFor, latestRatings,
    contributingJudges, freshId, hs]

/-- C5: the null-consensus defaults are asymmetric by design: a trade
placed on a session whose consensus is null records entrySentiment 50,
while settling a session with judgeCount 0 records finalConsensus 0 (not
50 and not null) both in the response and in the session row. -/
theorem null_consensus_defaults (sid now : Nat) (st : St)
    (hnull : consensusOf sid st.snapshots = none) :
    judgeCountOf sid st.snapshots = 0 ∧
    (∀ uid role dir amount st' tr,
      placeTrade uid role sid dir amount now st = (st', Except.ok tr) →
      tr.entry_sentiment = 50) ∧
    (∀ st' r, settleSession sid now st = (st', Except.ok r) →
      r.finalConsensus = 0 ∧
      ∃ sess ∈ st'.sessions, sess.id = sid ∧
        sess.final_consensus = some 0 ∧ sess.status = SessStatus.completed) := by
  have hemp : (latestRatings (snapsFor sid st.snapshots)).isEmpty = true := by
    by_contra hne
    unfold consensusOf at hnull
    rw [if_neg hne] at hnull
    exact absurd hnull (by simp)
  refine ⟨?_, ?_, ?_⟩
  · unfold judgeCountOf
    rw [← latestRatings_length]
    exact List.length_eq_zero.mpr (List.isEmpty_iff.mp hemp)
  · intro uid role dir amount st' tr h
    rw [placeTrade] at h
    unfold placeTradeWith at h
    dsimp only at h
    repeat' split at h
    all_goals
      try (exact Except.noConfusion (congrArg Prod.snd h))
    have hx := Except.ok.inj (congrArg Prod.snd h)
    rw [← hx]
    show jsOr (consensusOf sid (getOrCreateTrader uid role st).1.snapshots) 50 = 50
    rw [getOrCreateTrader_snapshots, hnull]
    rfl
  · intro st' r h
    obtain ⟨sess, hfind, hc, hrf, hrj, hsess⟩ := settleSession_ok h
    have hid : sess.id = sid := find?_id_eq hfind
    constructor
    · rw [hrf, hnull]
      norm_num [jsOr, round2, jsRound]
    · rw [hsess]
      refine ⟨_, mem_updateSessions_of_find? hfind _, ?_, ?_, rfl⟩
      · exact hid
      · show some (jsOr (consensusOf sid st.snapshots) 0) = some 0
        rw [hnull]
        rfl

/-- Witness for C5: placing a trade on a live session with an empty
rating ledger records entry sentiment 50. -/
theorem null_consensus_defaults_witness :
    (placeTrade 7 Role.listener 1 "over" 10 0 stLive).2 =
      Except.ok ⟨1, 1, 7, Role.listener, 1, Direction.over, 50, 10,
        TradeStatus.pending, none, none, none⟩ ∧
    (⟨1, 1, 7, Role.listener, 1, Direction.over, 50, 10,
        TradeStatus.pending, none, none, none⟩ : TradeRec).entry_sentiment = 50 := by
  have hs : ¬ ("over" = "") := by decide
  have h2 : (placeTrade 7 Role.listener 1 "over" 10 0 stLive).2 =
      Except.ok ⟨1, 1, 7, Role.listener, 1, Direction.over, 50, 10,
        TradeStatus.pending, none, none, none⟩ := by
    norm_num [placeTrade, placeTradeWith, stLive, getOrCreateTrader,
      debitTrader, hasPendingTrade, windowClosed, consensusOf, jsOr, snapsFor,
      latestRatings, contributingJudges, freshId, parseDirection, hs]
  refine ⟨h2, ?_⟩
  have h : placeTrade 7 Role.listener 1 "over" 10 0 stLive =
      ((placeTrade 7 Role.listener 1 "over" 10 0 stLive).1,
       Except.ok ⟨1, 1, 7, Role.listener, 1, Direction.over, 50, 10,
         TradeStatus.pending, none, none, none⟩) := by
    rw [← h2]
  exact (null_consensus_defaults 1 0 stLive rfl).2.1 7 Role.listener "over" 10
    _ _ h

/-- C6 counterexample: the settle endpoint only rejects sessions that are
already completed, so a session still in `scheduled` — which was never
live — settles successfully and becomes completed, contradicting the
claim that a session becomes completed only by settling it from live. -/
theorem scheduled_session_settles :
    stScheduled.sessions.map (fun s => s.status) = [SessStatus.scheduled] ∧
    exceptOk (settleSession 1 0 stScheduled).2 = true ∧
    (settleSession 1 0 stScheduled).1.sessions.map (fun s => s.status) =
      [SessStatus.completed] := by
  have hne : ¬ (SessStatus.scheduled = SessStatus.completed) := by decide
  refine ⟨rfl, ?_, ?_⟩ <;>
    norm_num [settleSession, stScheduled, consensusOf, judgeCountOf, jsOr,
      snapsFor, latestRatings, contributingJudges, updateSessions, exceptOk,
      settleOneTrade, snapsOfJudge, hne]

/-- C6 (amended): startSession succeeds exactly on `scheduled` sessions
and fails leaving the store unchanged otherwise (so a second start
fails); settleSession succeeds exactly on non-completed sessions
(scheduled or live), marks the session completed, and fails without
modifying anything on an already-completed session, so no session is
ever settled twice and `completed` is terminal. -/
theorem session_state_machine_spec (sid : Nat) (wm : Option Nat)
    (now now2 : Nat) (st : St) :
    (exceptOk (startSession sid wm now st).2 = true ↔
      ∃ sess, st.sessions.find? (fun s => s.id = sid) = some sess ∧
        sess.status = SessStatus.scheduled) ∧
    (exceptOk (startSession sid wm now st).2 = false →
      (startSession sid wm now st).1 = st) ∧
    (exceptOk (settleSession sid now st).2 = true ↔
      ∃ sess, st.sessions.find? (fun s => s.id = sid) = some sess ∧
        ¬ sess.status = SessStatus.completed) ∧
    (exceptOk (settleSession sid now st).2 = false →
      (settleSession sid now st).1 = st) ∧
    (∀ st' res, startSession sid wm now st = (st', Except.ok res) →
      (∃ sess', st'.sessions.find? (fun s => s.id = sid) = some sess' ∧
        sess'.status = SessStatus.live) ∧
      exceptOk (startSession sid wm now2 st').2 = false ∧
      (startSession sid wm now2 st').1 = st') ∧
    (∀ st' res, settleSession sid now st = (st', Except.ok res) →
      (∃ sess', st'.sessions.find? (fun s => s.id = sid) = some sess' ∧
        sess'.status = SessStatus.completed) ∧
      exceptOk (settleSession sid now2 st').2 = false ∧
      (settleSession sid now2 st').1 = st') := by
  refine ⟨?_, ?_, ?_, ?_, ?_, ?_⟩
  · constructor
    · intro hok
      rcases exceptOk_eq_true hok with ⟨res, hres⟩
      have h : startSession sid wm now st =
          ((startSession sid wm now st).1, Except.ok res) := by
        rw [← hres]
      rcases startSession_ok h with ⟨sess, hfind, hsched, _⟩
      exact ⟨sess, hfind, hsched⟩
    · rintro ⟨sess, hfind, hsched⟩
      simp [startSession, hfind, hsched, exceptOk]
  · unfold startSession
    cases hfind : st.sessions.find? (fun s => s.id = sid) with
    | none => intro _; rfl
    | some sess =>
        dsimp only
        by_cases hsched : ¬ sess.status = SessStatus.scheduled
        · rw [if_pos hsched]
          intro _
          rfl
        · rw [if_neg hsched]
          intro hf
          simp [exceptOk] at hf
  · constructor
    · intro hok
      rcases exceptOk_eq_true hok with ⟨res, hres⟩
      have h : settleSession sid now st =
          ((settleSession sid now st).1, Except.ok res) := by
        rw [← hres]
      rcases settleSession_ok h with ⟨sess, hfind, hc, _⟩
      exact ⟨sess, hfind, hc⟩
    · rintro ⟨sess, hfind, hc⟩
      simp [settleSession, hfind, hc, exceptOk]
  · unfold settleSession
    cases hfind : st.sessions.find? (fun s => s.id = sid) with
    | none => intro _; rfl
    | some sess =>
        dsimp only
        by_cases hc : sess.status = SessStatus.completed
        · rw [if_pos hc]
          intro _
          rfl
        · rw [if_neg hc]
          intro hf
          simp [exceptOk] at hf
  · intro st' res h
    rcases startSession_ok h with ⟨sess, hfind, hsched, hsess⟩
    have hfind' : st'.sessions.find? (fun s => s.id = sid) =
        some { sess with
               status := SessStatus.live,
               actual_start := some now,
               trading_window_end := wm.map (fun m => now + m * 60000) } := by
      have hfu := find_updateSessions sid (fun s =>
        { s with
          status := SessStatus.live,
          actual_start := some now,
          trading_window_end := wm.map (fun m => now + m * 60000) })
        st.sessions (fun s => rfl)
      rw [hsess, hfu, hfind]
      rfl
    refine ⟨⟨_, hfind', rfl⟩, ?_, ?_⟩
    · simp [startSession, hfind', exceptOk]
    · simp [startSession, hfind']
  · intro st' res h
    rcases settleSession_ok h with ⟨sess, hfind, hc, _, _, hsess⟩
    have hfind' : st'.sessions.find? (fun s => s.id = sid) =
        some { sess with
               status := SessStatus.completed,
               final_consensus := some (jsOr (consensusOf sid st.snapshots) 0),
               judge_count := judgeCountOf sid st.snapshots,
               end_time := some now } := by
      have hfu := find_updateSessions sid (fun s =>
        { s with
          status := SessStatus.completed,
          final_consensus := some (jsOr (consensusOf sid st.snapshots) 0),
          judge_count := judgeCountOf sid st.snapshots,
          end_time := some now })
        st.sessions (fun s => rfl)
      rw [hsess, hfu, hfind]
      rfl
    refine ⟨⟨_, hfind', rfl⟩, ?_, ?_⟩
    · simp [settleSession, hfind', exceptOk]
    · simp [settleSession, hfind']

/-- Witness for C6: settling an already-settled session fails and leaves
the store unchanged. -/
theorem session_state_machine_spec_witness :
    exceptOk (settleSession 1 1 (settleSession 1 0 stScheduled).1).2 = false ∧
    (settleSession 1 1 (settleSession 1 0 stScheduled).1).1 =
      (settleSession 1 0 stScheduled).1 := by
  have hne : ¬ (SessStatus.scheduled = SessStatus.completed) := by decide
  have h2 : (settleSession 1 0 stScheduled).2 =
      Except.ok ⟨0, 0, 0⟩ := by
    norm_num [settleSession, stScheduled, consensusOf, judgeCountOf, jsOr,
      snapsFor, latestRatings, contributingJudges, updateSessions, round2,
      jsRound, settleOneTrade, snapsOfJudge, hne]
  have h : settleSession 1 0 stScheduled =
      ((settleSession 1 0 stScheduled).1, Except.ok ⟨0, 0, 0⟩) := by
    rw [← h2]
  have happ := (session_state_machine_spec 1 none 0 1 stScheduled).2.2.2.2.2
    (settleSession 1 0 stScheduled).1 ⟨0, 0, 0⟩ h
  exact ⟨happ.2.1, happ.2.2⟩

/-- C7 counterexample: the apply handler checks for ANY judges row, not
an active one, so an identity whose only Judge record is suspended is
rejected even though no active Judge record exists, no application is
pending, and no cooldown is running. -/
theorem suspended_judge_blocks_apply :
    (applyJudge 7 Role.listener 0 stSuspendedJudge).2 =
      Except.error ApplyErr.alreadyJudge ∧
    (∀ j ∈ stSuspendedJudge.judges, ¬ j.status = JudgeStatus.active) ∧
    stSuspendedJudge.applications = [] := by
  refine ⟨rfl, ?_, rfl⟩
  decide

/-- C7 (amended): apply rejects exactly when any Judge record (active or
suspended) exists for the identity, or the most recent application is
pending/screening, or the most recent application is rejected with
nextAttemptDate in the future; the cooldown rejection returns that very
date; a failed screening stamps nextAttemptDate = now + 7 days (in ms)
on the rejected application and in the response. -/
theorem apply_gate_spec (uid : Nat) (role : Role) (now : Nat) (st : St) :
    (exceptOk (applyJudge uid role now st).2 = false ↔
      (st.judges.find? (fun j => j.user_id = uid ∧ j.user_type = role)).isSome
          = true ∨
      (∃ a, latestAppOf uid role st.applications = some a ∧
        (a.status = AppStatus.pending ∨ a.status = AppStatus.screening ∨
         (a.status = AppStatus.rejected ∧
          ∃ d, a.next_attempt_date = some d ∧ now < d)))) ∧
    (∀ a d,
      st.judges.find? (fun j => j.user_id = uid ∧ j.user_type = role) = none →
      latestAppOf uid role st.applications = some a →
      a.status = AppStatus.rejected → a.next_attempt_date = some d → now < d →
      (applyJudge uid role now st).2 = Except.error (ApplyErr.cooldown d)) ∧
    (∀ appId ratings st' r,
      submitScreening appId uid role ratings now st = (st', Except.ok r) →
      r.passed = false →
      r.next_attempt_date = some (now + cooldownMs) ∧
      ∃ a ∈ st'.applications, a.id = appId ∧ a.status = AppStatus.rejected ∧
        a.next_attempt_date = some (now + cooldownMs)) ∧
    cooldownMs = 604800000 := by
  refine ⟨?_, ?_, ?_, by norm_num [cooldownMs]⟩
  · unfold applyJudge
    cases hj : st.judges.find? (fun j => j.user_id = uid ∧ j.user_type = role) with
    | some j => simp [exceptOk]
    | none =>
        dsimp only
        cases hl : latestAppOf uid role st.applications with
        | none => simp [exceptOk]
        | some a =>
            dsimp only
            by_cases hp : a.status = AppStatus.pending ∨
                a.status = AppStatus.screening
            · rw [if_pos hp]
              simp [exceptOk]
              rcases hp with h | h
              · exact Or.inl h
              · exact Or.inr (Or.inl h)
            · rw [if_neg hp]
              cases hd : a.next_attempt_date with
              | none =>
                  dsimp only
                  simp [exceptOk]
                  refine ⟨fun hx => hp (Or.inl hx), fun hx => hp (Or.inr hx), ?_⟩
                  intro _ x hx
                  rw [hd] at hx
                  exact Option.noConfusion hx
              | some d =>
                  dsimp only
                  by_cases hr : a.status = AppStatus.rejected ∧ now < d
                  · rw [if_pos hr]
                    simp [exceptOk]
                    exact Or.inr (Or.inr ⟨hr.1, d, hd, hr.2⟩)
                  · rw [if_neg hr]
                    simp [exceptOk]
                    refine ⟨fun hx => hp (Or.inl hx), fun hx => hp (Or.inr hx), ?_⟩
                    intro hrej x hx
                    rw [hd] at hx
                    cases Option.some.inj hx
                    exact le_of_not_lt (fun hlt => hr ⟨hrej, hlt⟩)
  · intro a d hj hl hrej hdate hlt
    have hp : ¬ (a.status = AppStatus.pending ∨ a.status = AppStatus.screening) := by
      rw [hrej]
      rintro (hx | hx) <;> exact AppStatus.noConfusion hx
    unfold applyJudge
    rw [hj]
    dsimp only
    rw [hl]
    dsimp only
    rw [if_neg hp, hdate]
    dsimp only
    rw [if_pos ⟨hrej, hlt⟩]
  · intro appId ratings st' r h hpf
    unfold submitScreening at h
    cases hfind : st.applications.find?
        (fun a => a.id = appId ∧ a.user_id = uid ∧ a.user_type = role) with
    | none =>
        rw [hfind] at h
        exact Except.noConfusion (congrArg Prod.snd h)
    | some app =>
        rw [hfind] at h
        dsimp only at h
        have happ : app.id = appId := by
          have hq := List.find?_some hfind
          simp at hq
          exact hq.1
        repeat' split at h
        all_goals try (exact Except.noConfusion (congrArg Prod.snd h))
        · exfalso
          have hx := Except.ok.inj (congrArg Prod.snd h)
          rw [← hx] at hpf
          simp at hpf
        · have hx := Except.ok.inj (congrArg Prod.snd h)
          have h1 := congrArg Prod.fst h
          dsimp only at h1
          constructor
          · rw [← hx]
          · rw [← h1]
            refine ⟨_, List.mem_map_of_mem _ (List.mem_of_find?_eq_some hfind),
              ?_, ?_, ?_⟩
            · rw [if_pos happ]
              exact happ
            · rw [if_pos happ]
            · rw [if_pos happ]

/-- Witness for C7: a screening submission with a single rating 30 points
off the anchor fails (score 40, deviation 30) and stamps the 7-day
cooldown date on the rejected application. -/
theorem apply_gate_spec_witness :
    (⟨false, 40, 30, some 604800000⟩ : ScrResult).next_attempt_date =
        some (0 + cooldownMs) ∧
      ∃ a ∈ (submitScreening 1 7 Role.listener [(1, 100)] 0
          stScreening).1.applications,
        a.id = 1 ∧ a.status = AppStatus.rejected ∧
        a.next_attempt_date = some (0 + cooldownMs) := by
  have h2 : (submitScreening 1 7 Role.listener [(1, 100)] 0 stScreening).2 =
      Except.ok ⟨false, 40, 30, some 604800000⟩ := by
    norm_num [submitScreening, stScreening, screenRatings, cooldownMs]
  have h : submitScreening 1 7 Role.listener [(1, 100)] 0 stScreening =
      ((submitScreening 1 7 Role.listener [(1, 100)] 0 stScreening).1,
       Except.ok ⟨false, 40, 30, some 604800000⟩) := by
    rw [← h2]
  exact (apply_gate_spec 7 Role.listener 0 stScreening).2.2.1 1 [(1, 100)]
    _ _ h rfl

/-- C8: avgDeviation is the mean of |submittedRating − correctRating|
over the matched anchors, unmatched anchor ids are silently skipped, the
submission fails when zero anchors match, score = max(0, 100 −
2×avgDeviation), passed ↔ score ≥ 60 ∧ avgDeviation ≤ 15, and in
particular avgDeviation 0 gives (100, passed) while avgDeviation 20
gives (60, not passed). -/
theorem screening_score_spec (appId uid : Nat) (role : Role)
    (ratings : List (Nat × ℚ)) (now : Nat) (st : St) :
    ((screenRatings st.anchor_songs ratings).1 =
      ratings.countP (fun p =>
        (st.anchor_songs.find? (fun a => a.id = p.1)).isSome)) ∧
    ((screenRatings st.anchor_songs ratings).2 =
      (ratings.filterMap (fun p =>
        (st.anchor_songs.find? (fun a => a.id = p.1)).map
          (fun a => |p.2 - a.correct_rating|))).sum) ∧
    ((screenRatings st.anchor_songs ratings).1 = 0 →
      exceptOk (submitScreening appId uid role ratings now st).2 = false) ∧
    (∀ st' r,
      submitScreening appId uid role ratings now st = (st', Except.ok r) →
      (screenRatings st.anchor_songs ratings).1 ≠ 0 ∧
      r.avgDeviation * (screenRatings st.anchor_songs ratings).1 =
        (screenRatings st.anchor_songs ratings).2 ∧
      r.score = max 0 (100 - 2 * r.avgDeviation) ∧
      (r.passed = true ↔ 60 ≤ r.score ∧ r.avgDeviation ≤ 15) ∧
      (r.avgDeviation = 0 → r.score = 100 ∧ r.passed = true) ∧
      (r.avgDeviation = 20 → r.score = 60 ∧ r.passed = false)) := by
  refine ⟨?_, ?_, ?_, ?_⟩
  · rw [screenRatings, screenRatings_acc]
    simp
  · rw [screenRatings, screenRatings_acc]
    simp
  · intro h0
    unfold submitScreening
    cases hfind : st.applications.find?
        (fun a => a.id = appId ∧ a.user_id = uid ∧ a.user_type = role) with
    | none => rfl
    | some app =>
        dsimp only
        by_cases h1 : ¬ app.status = AppStatus.screening
        · rw [if_pos h1]
          rfl
        · rw [if_neg h1]
          by_cases h2 : ratings.isEmpty = true
          · rw [if_pos h2]
            rfl
          · rw [if_neg h2]
            rw [if_pos h0]
            rfl
  · intro st' r h
    unfold submitScreening at h
    cases hfind : st.applications.find?
        (fun a => a.id = appId ∧ a.user_id = uid ∧ a.user_type = role) with
    | none =>
        rw [hfind] at h
        exact Except.noConfusion (congrArg Prod.snd h)
    | some app =>
        rw [hfind] at h
        dsimp only at h
        by_cases h1 : ¬ app.status = AppStatus.screening
        · rw [if_pos h1] at h
          exact Except.noConfusion (congrArg Prod.snd h)
        · rw [if_neg h1] at h
          by_cases h2 : ratings.isEmpty = true
          · rw [if_pos h2] at h
            exact Except.noConfusion (congrArg Prod.snd h)
          · rw [if_neg h2] at h
            by_cases h0 : (screenRatings st.anchor_songs ratings).1 = 0
            · rw [if_pos h0] at h
              exact Except.noConfusion (congrArg Prod.snd h)
            · rw [if_neg h0] at h
              have hcast : ((screenRatings st.anchor_songs ratings).1 : ℚ) ≠ 0 :=
                Nat.cast_ne_zero.mpr h0
              by_cases hp : decide (60 ≤ max 0
                    (100 - (screenRatings st.anchor_songs ratings).2 /
                      (screenRatings st.anchor_songs ratings).1 * 2) ∧
                  (screenRatings st.anchor_songs ratings).2 /
                    (screenRatings st.anchor_songs ratings).1 ≤ 15) = true
              · rw [if_pos hp] at h
                have hx := Except.ok.inj (congrArg Prod.snd h)
                rw [decide_eq_true_eq] at hp
                refine ⟨h0, ?_, ?_, ?_, ?_, ?_⟩ <;> rw [← hx]
                · exact div_mul_cancel₀ _ hcast
                · show max 0 (100 - _ / _ * 2) = max 0 (100 - 2 * (_ / _))
                  ring_nf
                · simp only [show (true = true) = True from by simp, true_iff]
                  exact hp
                · intro havg
                  refine ⟨?_, rfl⟩
                  show max 0 (100 - _ / _ * 2) = 100
                  rw [show (screenRatings st.anchor_songs ratings).2 /
                      ((screenRatings st.anchor_songs ratings).1 : ℚ) = 0
                    from havg]
                  norm_num
                · intro havg
                  exfalso
                  rw [show (screenRatings st.anchor_songs ratings).2 /
                      ((screenRatings st.anchor_songs ratings).1 : ℚ) = 20
                    from havg] at hp
                  have := hp.2
                  norm_num at this
              · rw [if_neg hp] at h
                have hx := Except.ok.inj (congrArg Prod.snd h)
                rw [show (¬ decide (60 ≤ max 0
                      (100 - (screenRatings st.anchor_songs ratings).2 /
                        (screenRatings st.anchor_songs ratings).1 * 2) ∧
                    (screenRatings st.anchor_songs ratings).2 /
                      (screenRatings st.anchor_songs ratings).1 ≤ 15) = true) =
                    ¬ (60 ≤ max 0
                      (100 - (screenRatings st.anchor_songs ratings).2 /
                        (screenRatings st.anchor_songs ratings).1 * 2) ∧
                    (screenRatings st.anchor_songs ratings).2 /
                      (screenRatings st.anchor_songs ratings).1 ≤ 15)
                  from by rw [decide_eq_true_eq]] at hp
                refine ⟨h0, ?_, ?_, ?_, ?_, ?_⟩ <;> rw [← hx]
                · exact div_mul_cancel₀ _ hcast
                · show max 0 (100 - _ / _ * 2) = max 0 (100 - 2 * (_ / _))
                  ring_nf
                · simp only [show (false = true) = False from by simp,
                    false_iff]
                  exact hp
                · intro havg
                  exfalso
                  apply hp
                  rw [show (screenRatings st.anchor_songs ratings).2 /
                      ((screenRatings st.anchor_songs ratings).1 : ℚ) = 0
                    from havg]
                  norm_num
                · intro havg
                  refine ⟨?_, rfl⟩
                  show max 0 (100 - _ / _ * 2) = 60
                  rw [show (screenRatings st.anchor_songs ratings).2 /
                      ((screenRatings st.anchor_songs ratings).1 : ℚ) = 20
                    from havg]
                  norm_num

/-- Witness for C8: a single on-the-nose rating gives zero deviation,
score 100 and a pass. -/
theorem screening_score_spec_witness :
    (submitScreening 1 7 Role.listener [(1, 70)] 0 stScreening).2 =
      Except.ok ⟨true, 100, 0, none⟩ ∧
    ((⟨true, 100, 0, none⟩ : ScrResult).avgDeviation = 0 →
      (⟨true, 100, 0, none⟩ : ScrResult).score = 100 ∧
      (⟨true, 100, 0, none⟩ : ScrResult).passed = true) := by
  have h2 : (submitScreening 1 7 Role.listener [(1, 70)] 0 stScreening).2 =
      Except.ok ⟨true, 100, 0, none⟩ := by
    norm_num [submitScreening, stScreening, screenRatings, upsertActiveJudge,
      freshId, abs_zero, sub_self]
  refine ⟨h2, ?_⟩
  have h : submitScreening 1 7 Role.listener [(1, 70)] 0 stScreening =
      ((submitScreening 1 7 Role.listener [(1, 70)] 0 stScreening).1,
       Except.ok ⟨true, 100, 0, none⟩) := by
    rw [← h2]
  exact ((screening_score_spec 1 7 Role.listener [(1, 70)] 0
    stScreening).2.2.2 _ _ h).2.2.2.2.1

/-- C9: a submit-rating message from a sender who is not an active judge,
or for a session that is not live, is silently dropped (store unchanged,
no event, no error); otherwise the rating is rounded to the nearest
integer, clamped to [0,100], and the stored snapshot's rating always lies
in [0,100]. -/
theorem submit_rating_spec (uid : Nat) (role : Role) (sid : Nat)
    (rating : ℚ) (now : Nat) (st : St) :
    ((st.judges.find? (fun j => j.user_id = uid ∧ j.user_type = role ∧
        j.status = JudgeStatus.active) = none ∨
      st.sessions.find? (fun s => s.id = sid ∧
        s.status = SessStatus.live) = none) →
      submitRating uid role sid rating now st = (st, none)) ∧
    (∀ j, st.judges.find? (fun j => j.user_id = uid ∧ j.user_type = role ∧
        j.status = JudgeStatus.active) = some j →
      ∀ s, st.sessions.find? (fun s => s.id = sid ∧
        s.status = SessStatus.live) = some s →
      (submitRating uid role sid rating now st).1.snapshots =
        st.snapshots ++ [⟨sid, j.id, max 0 (min 100 (jsRound rating)), now⟩] ∧
      ((submitRating uid role sid rating now st).2).isSome = true) ∧
    (0 ≤ max 0 (min 100 (jsRound rating)) ∧
      max 0 (min 100 (jsRound rating)) ≤ 100) := by
  refine ⟨?_, ?_, le_max_left 0 _, max_le (by norm_num) (min_le_left _ _)⟩
  · rintro (hj | hs)
    · unfold submitRating
      rw [hj]
    · unfold submitRating
      cases hjf : st.judges.find? (fun j => j.user_id = uid ∧
          j.user_type = role ∧ j.status = JudgeStatus.active) with
      | none => rfl
      | some j =>
          dsimp only
          rw [hs]
  · intro j hj s hs
    unfold submitRating
    rw [hj]
    dsimp only
    rw [hs]
    exact ⟨rfl, rfl⟩

/-- Witness for C9: an active judge rating a live session appends exactly
one snapshot with the clamped integer rating. -/
theorem submit_rating_spec_witness :
    (submitRating 9 Role.creator 1 70 0 stLive).1.snapshots =
      stLive.snapshots ++ [⟨1, 1, max 0 (min 100 (jsRound 70)), 0⟩] ∧
    ((submitRating 9 Role.creator 1 70 0 stLive).2).isSome = true :=
  (submit_rating_spec 9 Role.creator 1 70 0 stLive).2.1
    ⟨1, 9, Role.creator, JudgeStatus.active, 0, 0⟩ rfl
    ⟨1, SessStatus.live, none, some 0, none, none, 0⟩ rfl

/-- C4: placeTrade rejects — leaving the whole store unchanged — unless
direction ∈ {over, under}, 0 < amount ≤ 50, the session exists with
status live and an unexpired trading window, the (possibly lazily
created) trader's balance covers the amount, and no pending trade exists
for the same (session, user) pair; it succeeds exactly when all of these
hold. -/
theorem place_trade_preconditions (uid : Nat) (role : Role) (sid : Nat)
    (dir : String) (amount : ℚ) (now : Nat) (st : St)
    (hsid : sid ≠ 0)
    (hwf : hasPendingTrade uid role sid st.trades = true →
      (st.traders.find? (fun t => t.user_id = uid ∧ t.user_type = role)).isSome
        = true) :
    (exceptOk (placeTrade uid role sid dir amount now st).2 = true ↔
      ((dir = "over" ∨ dir = "under") ∧ 0 < amount ∧ amount ≤ 50 ∧
       (∃ sess, st.sessions.find? (fun s => s.id = sid) = some sess ∧
         sess.status = SessStatus.live ∧ windowClosed sess now = false) ∧
       amount ≤ effBalance uid role st ∧
       hasPendingTrade uid role sid st.trades = false)) ∧
    (exceptOk (placeTrade uid role sid dir amount now st).2 = false →
      (placeTrade uid role sid dir amount now st).1 = st) := by
  unfold placeTrade placeTradeWith
  by_cases hc0 : sid = 0 ∨ dir = "" ∨ amount = 0
  · rw [if_pos hc0]
    refine ⟨⟨fun hok => by simp [exceptOk] at hok, ?_⟩, fun _ => rfl⟩
    rintro ⟨hdir, hamt, _⟩
    exfalso
    rcases hc0 with h | h | h
    · exact hsid h
    · rcases hdir with hd | hd <;> rw [hd] at h <;> exact absurd h (by decide)
    · rw [h] at hamt
      exact lt_irrefl 0 hamt
  · rw [if_neg hc0]
    by_cases hc1 : ¬ (dir = "over" ∨ dir = "under")
    · rw [if_pos hc1]
      refine ⟨⟨fun hok => by simp [exceptOk] at hok, ?_⟩, fun _ => rfl⟩
      rintro ⟨hdir, _⟩
      exact absurd hdir hc1
    · rw [if_neg hc1]
      by_cases hc2 : amount ≤ 0 ∨ 50 < amount
      · rw [if_pos hc2]
        refine ⟨⟨fun hok => by simp [exceptOk] at hok, ?_⟩, fun _ => rfl⟩
        rintro ⟨_, hamt, hle, _⟩
        rcases hc2 with h | h
        · exact absurd hamt (not_lt.mpr h)
        · exact absurd hle (not_le.mpr h)
      · rw [if_neg hc2]
        have hamt : 0 < amount ∧ amount ≤ 50 := by
          rcases not_or.mp hc2 with ⟨h1, h2⟩
          exact ⟨lt_of_not_le h1, le_of_not_lt h2⟩
        cases hfind : st.sessions.find? (fun s => s.id = sid) with
        | none =>
            dsimp only
            refine ⟨⟨fun hok => by simp [exceptOk] at hok, ?_⟩, fun _ => rfl⟩
            rintro ⟨_, _, _, ⟨sess, hs, _⟩, _⟩
            exact Option.noConfusion hs
        | some sess =>
            dsimp only
            by_cases hlive : ¬ sess.status = SessStatus.live
            · rw [if_pos hlive]
              refine ⟨⟨fun hok => by simp [exceptOk] at hok, ?_⟩, fun _ => rfl⟩
              rintro ⟨_, _, _, ⟨sess', hs, hs2, _⟩, _⟩
              cases Option.some.inj hs
              exact absurd hs2 hlive
            · rw [if_neg hlive]
              rw [not_not] at hlive
              by_cases hw : windowClosed sess now = true
              · rw [if_pos hw]
                refine ⟨⟨fun hok => by simp [exceptOk] at hok, ?_⟩,
                  fun _ => rfl⟩
                rintro ⟨_, _, _, ⟨sess', hs, _, hw2⟩, _⟩
                cases Option.some.inj hs
                rw [hw] at hw2
                exact Bool.noConfusion hw2
              · rw [if_neg hw]
                have hwfalse : windowClosed sess now = false := by
                  simpa using hw
                cases hft : st.traders.find?
                    (fun t => t.user_id = uid ∧ t.user_type = role) with
                | some tr =>
                    have hg1 : getOrCreateTrader uid role st = (st, tr) := by
                      unfold getOrCreateTrader
                      rw [hft]
                    have heff : effBalance uid role st =
                        tr.play_money_balance := by
                      unfold effBalance
                      rw [hft]
                    rw [hg1]
                    dsimp only
                    by_cases hbal : tr.play_money_balance < amount
                    · rw [if_pos hbal]
                      refine ⟨⟨fun hok => by simp [exceptOk] at hok, ?_⟩,
                        fun _ => rfl⟩
                      rintro ⟨_, _, _, _, hble, _⟩
                      rw [heff] at hble
                      exact absurd hble (not_le.mpr hbal)
                    · rw [if_neg hbal]
                      by_cases hdup : hasPendingTrade uid role sid st.trades
                          = true
                      · rw [if_pos hdup]
                        refine ⟨⟨fun hok => by simp [exceptOk] at hok, ?_⟩,
                          fun _ => rfl⟩
                        rintro ⟨_, _, _, _, _, hdf⟩
                        rw [hdup] at hdf
                        exact Bool.noConfusion hdf
                      · rw [if_neg hdup]
                        rw [if_pos rfl]
                        constructor
                        · constructor
                          · intro _
                            exact ⟨not_not.mp hc1, hamt.1, hamt.2,
                              ⟨sess, rfl, hlive, hwfalse⟩,
                              by rw [heff]; exact le_of_not_lt hbal,
                              by simpa using hdup⟩
                          · intro _
                            rfl
                        · intro hf
                          simp [exceptOk] at hf
                | none =>
                    have hg1 : getOrCreateTrader uid role st =
                        ({ st with traders := st.traders ++
                           [newTrader (freshId (st.traders.map
                             (fun x => x.id))) uid role] },
                         newTrader (freshId (st.traders.map
                           (fun x => x.id))) uid role) := by
                      unfold getOrCreateTrader
                      rw [hft]
                    have heff : effBalance uid role st =
                        initialTraderBalance := by
                      unfold effBalance
                      rw [hft]
                    rw [hg1]
                    dsimp only
                    have hbal : ¬ (newTrader (freshId (st.traders.map
                        (fun x => x.id))) uid role).play_money_balance
                          < amount := by
                      show ¬ initialTraderBalance < amount
                      unfold initialTraderBalance
                      exact not_lt.mpr (le_trans hamt.2 (by norm_num))
                    rw [if_neg hbal]
                    by_cases hdup : hasPendingTrade uid role sid st.trades
                        = true
                    · have hx := hwf hdup
                      rw [hft] at hx
                      simp at hx
                    · rw [if_neg hdup]
                      rw [if_pos rfl]
                      constructor
                      · constructor
                        · intro _
                          refine ⟨not_not.mp hc1, hamt.1, hamt.2,
                            ⟨sess, rfl, hlive, hwfalse⟩, ?_,
                            by simpa using hdup⟩
                          rw [heff]
                          exact le_trans hamt.2
                            (by norm_num [initialTraderBalance])
                        · intro _
                          rfl
                      · intro hf
                        simp [exceptOk] at hf

/-- Witness for C4: with every precondition met on a concrete store, the
trade is accepted. -/
theorem place_trade_preconditions_witness :
    exceptOk (placeTrade 7 Role.listener 1 "over" 10 0 stLive).2 = true :=
  ((place_trade_preconditions 7 Role.listener 1 "over" 10 0 stLive
      (by decide) (fun hx => by simp [hasPendingTrade, stLive] at hx)).1).mpr
    ⟨Or.inl rfl, by norm_num, by norm_num,
     ⟨⟨1, SessStatus.live, none, some 0, none, none, 0⟩, rfl, rfl, rfl⟩,
     by norm_num [effBalance, stLive], rfl⟩

end AlphaChannel
